import Mathlib

/-!
Verification of `cocoali/searcher` (`src/app.py`), a Flask web service that
scrapes a target web page and extracts/filters structured content
(title, description, headings, paragraphs, links) matching an optional query.

The Python code is embedded shallowly:
* `clean_text` models `clean_text` (app.py lines 22-28);
* `scrape_website` models `scrape_website` (lines 30-129), with the network
  fetch and the HTML parse supplied as an explicit `fetch` argument;
* `search` models the `/search` handler (lines 139-193), with the JSON parse
  outcome and the executor outcome supplied as explicit arguments;
* `boundedRun` models the timing behaviour of the
  `with ThreadPoolExecutor(max_workers=1)` block around `future.result`.

The file is laid out with all definitions first, then the supporting lemmas,
then one theorem per specification claim.
-/

namespace App

/-! ## Text normalization (`clean_text`, app.py lines 22-28) -/

/-- Model of the whitespace class used by Python's `str.strip()` and the
regex `\s` in `clean_text` (app.py line 27), restricted to the ASCII
whitespace characters; the Python versions additionally accept Unicode
whitespace, which no input in this development uses. -/
def isSpace (c : Char) : Bool :=
  c = ' ' || c = '\t' || c = '\n' || c = '\r' || c = '\x0b' || c = '\x0c'

/-- Model of `re.sub(r'\s+', ' ', s)` (app.py line 27): every maximal run of
whitespace characters is replaced by a single space. A run contributes one
`' '` (emitted when its last character is reached). -/
def collapseWS : List Char → List Char
  | [] => []
  | [c] => if isSpace c then [' '] else [c]
  | c :: d :: rest =>
    if isSpace c then
      if isSpace d then collapseWS (d :: rest)
      else ' ' :: collapseWS (d :: rest)
    else c :: collapseWS (d :: rest)

/-- Model of Python `str.strip()`: drop leading and trailing whitespace. -/
def dropTrailingWS (l : List Char) : List Char :=
  ((l.reverse).dropWhile isSpace).reverse

def stripWS (l : List Char) : List Char :=
  dropTrailingWS (l.dropWhile isSpace)

/-- Model of `str.strip()` on Lean strings. -/
def stripStr (s : String) : String :=
  String.mk (stripWS s.data)

/-- The function `clean_text` (app.py lines 22-28). The argument is `Option String`
because the Python function accepts `None` (e.g. `meta.get('content')`);
`none` and the empty string are the falsy inputs of `if not text`. -/
def clean_text : Option String → String
  | none => ""
  | some s => if s.isEmpty then "" else String.mk (collapseWS (stripWS s.data))

/-- Whether the list does not start with a whitespace character. -/
def noLeadWS : List Char → Bool
  | [] => true
  | c :: _ => !isSpace c

/-- Whether the list does not end with a whitespace character. -/
def noTrailWS : List Char → Bool
  | [] => true
  | [c] => !isSpace c
  | _ :: d :: rest => noTrailWS (d :: rest)

/-! ## URL handling (`urllib.parse.urlparse` / `urljoin`) -/

/-- The characters a URL scheme may contain after its leading letter
(`scheme_chars` in `urllib.parse`). -/
def isSchemeChar (c : Char) : Bool :=
  c.isAlpha || c.isDigit || c = '+' || c = '-' || c = '.'

/-- Split a character list at its first colon, if any. -/
def splitAtColon : List Char → Option (List Char × List Char)
  | [] => none
  | c :: cs =>
    if c = ':' then some ([], cs)
    else
      match splitAtColon cs with
      | some (b, a) => some (c :: b, a)
      | none => none

structure UrlParts where
  scheme : String
  netloc : String
  path : String
deriving DecidableEq, Repr

def isNetlocEnd (c : Char) : Bool := c = '/' || c = '?' || c = '#'

/-- Model of `urllib.parse.urlparse`, down to the components the code reads:
a scheme is recognized when the text before the first colon is non-empty,
starts with a letter, and consists of scheme characters (it is lowercased);
the netloc is the text between a leading `//` of the remainder and the next
`/`, `?` or `#`. The path field keeps the rest undissected (the query and
fragment components are never read by the code under verification). -/
def urlparse (url : String) : UrlParts :=
  let (schemeChars, rest) :=
    match splitAtColon url.data with
    | some (b, a) =>
      match b with
      | [] => (([] : List Char), url.data)
      | c :: _ =>
        if c.isAlpha && b.all isSchemeChar then (b.map Char.toLower, a)
        else ([], url.data)
    | none => ([], url.data)
  if rest.take 2 = ['/', '/'] then
    let r := rest.drop 2
    { scheme := String.mk schemeChars,
      netloc := String.mk (r.takeWhile (fun c => !isNetlocEnd c)),
      path := String.mk (r.dropWhile (fun c => !isNetlocEnd c)) }
  else
    { scheme := String.mk schemeChars, netloc := "", path := String.mk rest }

/-- Whether the string begins with a recognizable scheme and a colon. -/
def hasScheme (s : String) : Bool :=
  match splitAtColon s.data with
  | some (b, _) =>
    match b with
    | [] => false
    | c :: _ => c.isAlpha && b.all isSchemeChar
  | none => false

/-- Python `s.startswith(p)` over the character lists (kept list-based so
that concrete instances evaluate by `decide`). -/
def startswith (s p : String) : Bool := p.data.isPrefixOf s.data

/-- Everything up to and including the last `/` of a path. -/
def dropLastSegment (path : List Char) : List Char :=
  (path.reverse.dropWhile (fun c => !(c = '/'))).reverse

/-- Model of `urllib.parse.urljoin` for the reference cases the code meets:
an `href` that carries its own scheme is returned unchanged; `//h` takes the
base scheme; `/p` replaces the base path; any other non-empty `href`
replaces the last segment of the base path (an empty base path acts as `/`);
an empty `href` returns the base. Dot-segment normalization is not modelled
(no input in this development contains dot segments). -/
def urljoin (base href : String) : String :=
  if href.isEmpty then base
  else if hasScheme href then href
  else
    let b := urlparse base
    if startswith href "//" then b.scheme ++ ":" ++ href
    else if startswith href "/" then b.scheme ++ "://" ++ b.netloc ++ href
    else
      let merged := dropLastSegment b.path.data
      let merged := if merged = [] then ['/'] else merged
      b.scheme ++ "://" ++ b.netloc ++ String.mk merged ++ href

/-! ## Content extraction (`scrape_website`, app.py lines 30-129) -/

structure Anchor where
  text : String
  href : String
deriving DecidableEq, Repr

/-- The parsed HTML document (`BeautifulSoup(response.content)`), reduced to
the queries `scrape_website` makes of it: the text of the first `<title>`
element, the `content` attribute of the first `<meta name="description">`
(`none` when the element is absent, `some none` when it lacks the
attribute), and the document-order lists of all `h1`/`h2`/`h3` texts, all
`<p>` texts, and all anchors that have an `href`. -/
structure HtmlDoc where
  titleText : Option String
  metaDescription : Option (Option String)
  headingTexts : List String
  paragraphTexts : List String
  anchors : List Anchor
deriving DecidableEq, Repr

structure Link where
  text : String
  url : String
deriving DecidableEq, Repr

structure ScrapeOk where
  url : String
  title : String
  description : String
  query : Option String
  headings : List String
  paragraphs : List String
  links : List Link
  found_matches : Option Nat
deriving DecidableEq, Repr

inductive ScrapeResult where
  | ok : ScrapeOk → ScrapeResult
  | error : String → ScrapeResult
deriving DecidableEq, Repr

/-- Outcome of `requests.get(url, ...)` + `response.raise_for_status()` +
`BeautifulSoup(response.content, 'html.parser')` (app.py lines 45-49); the
non-success constructors are the exceptions caught at lines 117-129. -/
inductive FetchOutcome where
  | success : HtmlDoc → FetchOutcome
  | timeout : FetchOutcome
  | connectionError : FetchOutcome
  | httpError : Nat → FetchOutcome
  | otherError : String → FetchOutcome
deriving DecidableEq, Repr

/-- App.py lines 60-64: texts of the first 10 `h1`/`h2`/`h3` elements,
cleaned, with empty ones dropped. -/
def extractHeadings (soup : HtmlDoc) : List String :=
  ((soup.headingTexts.take 10).map (fun h => clean_text (some h))).filter
    (fun t => !t.isEmpty)

/-- App.py lines 67-71: texts of the first 20 `<p>` elements, cleaned, kept
only when non-empty and longer than 20 characters. -/
def extractParagraphs (soup : HtmlDoc) : List String :=
  ((soup.paragraphTexts.take 20).map (fun p => clean_text (some p))).filter
    (fun t => !t.isEmpty && decide (t.length > 20))

/-- App.py lines 74-82: the first 15 anchors with an `href`, keeping those
with non-empty cleaned text, their `href` resolved against `url`. -/
def extractLinks (url : String) (soup : HtmlDoc) : List Link :=
  (soup.anchors.take 15).filterMap (fun a =>
    let link_text := clean_text (some a.text)
    if link_text.isEmpty then none
    else some { text := link_text, url := urljoin url a.href })

/-- Python truthiness of the optional `query` string (`if query:` at line
85): `None` and `""` are falsy. -/
def truthy : Option String → Bool
  | none => false
  | some s => !s.isEmpty

/-- Python `s.lower()`, modelled with `Char.toLower` (which lowercases the
ASCII letters; the Python version also lowercases non-ASCII cased letters,
which no input here uses). -/
def lowerStr (s : String) : String := String.mk (s.data.map Char.toLower)

/-- Python substring membership `needle in hay`. -/
def containsSub (needle hay : String) : Bool :=
  decide (needle.data <:+: hay.data)

/-- The function `scrape_website` (app.py lines 30-129). The network fetch and HTML parse
are abstracted as the `fetch` argument; everything downstream of line 49 is
modelled directly. -/
def scrape_website (url : String) (query : Option String)
    (fetch : String → FetchOutcome) : ScrapeResult :=
  let parsed := urlparse url
  if parsed.scheme = "" ∨ parsed.netloc = "" then .error "無効なURLです"
  else
    match fetch url with
    | .timeout => .error "リクエストがタイムアウトしました"
    | .connectionError => .error "接続エラーが発生しました"
    | .httpError code => .error ("HTTPエラー: " ++ toString code)
    | .otherError msg => .error ("スクレイピングエラー: " ++ msg)
    | .success soup =>
      let title_text :=
        match soup.titleText with
        | some t => clean_text (some t)
        | none => "タイトルなし"
      let description_text :=
        match soup.metaDescription with
        | some content => clean_text content
        | none => ""
      let headings := extractHeadings soup
      let paragraphs := extractParagraphs soup
      let links := extractLinks url soup
      if truthy query then
        let q := query.getD ""
        let query_lower := lowerStr q
        let relevant_headings :=
          headings.filter (fun h => containsSub query_lower (lowerStr h))
        let relevant_paragraphs :=
          paragraphs.filter (fun p => containsSub query_lower (lowerStr p))
        let relevant_links :=
          links.filter (fun l => containsSub query_lower (lowerStr l.text))
        .ok { url := url, title := title_text, description := description_text,
              query := some q,
              headings := relevant_headings.take 5,
              paragraphs := relevant_paragraphs.take 10,
              links := relevant_links.take 10,
              found_matches := some (relevant_headings.length
                + relevant_paragraphs.length + relevant_links.length) }
      else
        .ok { url := url, title := title_text, description := description_text,
              query := none,
              headings := headings.take 5,
              paragraphs := paragraphs.take 10,
              links := links.take 10,
              found_matches := none }

/-! ## The `/search` handler (app.py lines 139-193) -/

/-- Timeout constants (app.py lines 19-20), in seconds. -/
def REQUEST_TIMEOUT : Nat := 10

def MAX_SEARCH_TIME : Nat := 60

structure RequestData where
  url : Option String
  query : Option String
deriving DecidableEq, Repr

/-- Outcome of `request.get_json()` (line 145): `raises msg` when the parse
raises (a malformed JSON body raises `BadRequest`, an `Exception`
subclass, caught by the handler's own broad `except` at line 190);
`value none` when it returns a falsy value (`None`, or an empty object);
`value (some d)` when it returns an object carrying the given `url` and
`query` members (`none` for an absent member, which `data.get(..., '')`
turns into `""`). -/
inductive BodyParse where
  | raises : String → BodyParse
  | value : Option RequestData → BodyParse

/-- Outcome of `future.result(timeout=MAX_SEARCH_TIME)` (line 170):
`completed` when the submitted `scrape_website` call returns a value within
the outer deadline; `raised` when `future.result` raises — either
`concurrent.futures.TimeoutError` after 60 s or an exception escaping the
worker — which line 184 catches. -/
inductive ExecOutcome where
  | completed : ScrapeResult → ExecOutcome
  | raised : String → ExecOutcome

/-- The JSON response of `/search`: HTTP status, the `error` member if any,
the scrape payload if any, and the `elapsed_time` member if the branch sets
one (its value is the clock reading passed to `search`). -/
structure SearchResponse where
  status : Nat
  error : Option String
  result : Option ScrapeOk
  elapsed_time : Option Nat
deriving DecidableEq, Repr

/-- Lines 159-160: prepend `https://` when the URL lacks a scheme prefix. -/
def effectiveUrl (url : String) : String :=
  if startswith url "http://" || startswith url "https://" then url
  else "https://" ++ url

/-- Lines 169-188: shape the response from the executor outcome. Only this
branch reads the clock (line 171); the `except` arm at lines 184-188
answers 500 without an `elapsed_time` member. -/
def handleOutcome (out : ExecOutcome) (elapsed : Nat) : SearchResponse :=
  match out with
  | .completed (.error e) =>
    { status := 400, error := some e, result := none,
      elapsed_time := some elapsed }
  | .completed (.ok payload) =>
    { status := 200, error := none, result := some payload,
      elapsed_time := some elapsed }
  | .raised msg =>
    { status := 500, error := some ("処理中にエラーが発生しました: " ++ msg),
      result := none, elapsed_time := none }

/-- The `/search` handler (app.py lines 139-193). `runScrape url query`
stands for submitting `scrape_website(url, query)` to the fresh
single-worker executor and waiting up to `MAX_SEARCH_TIME`; `elapsed` is
the clock difference read at line 171. -/
def search (body : BodyParse) (runScrape : String → String → ExecOutcome)
    (elapsed : Nat) : SearchResponse :=
  match body with
  | .raises msg =>
    { status := 500,
      error := some ("リクエスト処理でエラーが発生しました: " ++ msg),
      result := none, elapsed_time := none }
  | .value none =>
    { status := 400, error := some "リクエストデータが提供されていません",
      result := none, elapsed_time := none }
  | .value (some data) =>
    let url := stripStr (data.url.getD "")
    let query := stripStr (data.query.getD "")
    if url.isEmpty then
      { status := 400, error := some "URLが提供されていません",
        result := none, elapsed_time := none }
    else
      handleOutcome (runScrape (effectiveUrl url) query) elapsed

/-! ## Bounded execution (`with ThreadPoolExecutor(max_workers=1)`) -/

/-- A unit of blocking work: how long it runs (wall-clock seconds) and
whether it returns a value or raises. -/
structure TimedWork (α : Type) where
  duration : Nat
  outcome : Except String α

inductive TaskOutcome (α : Type) where
  | success : α → TaskOutcome α
  | timedOut : TaskOutcome α
  | failed : String → TaskOutcome α
deriving DecidableEq, Repr

/-- Timing model of app.py lines 167-188: submit `w` to a fresh
single-worker pool and call `future.result(timeout=deadline)`. The first
component classifies the outcome the caller observes; the second is the
total wall-clock time the caller is blocked. When the work outlasts the
deadline, `future.result` raises `TimeoutError` at `deadline` seconds, but
leaving the `with` block then runs `Executor.shutdown(wait=True)`, which
blocks until the in-flight (not cancelled) work finishes — so in every case
the caller is blocked for the work's full duration. -/
def boundedRun {α : Type} (w : TimedWork α) (deadline : Nat) :
    TaskOutcome α × Nat :=
  if w.duration ≤ deadline then
    (match w.outcome with
     | .ok v => .success v
     | .error e => .failed e, w.duration)
  else (.timedOut, w.duration)

/-! ## Shared sample inputs -/

/-- The parsed form of the sample HTML of spec §8:
`<title>T</title><meta name="description" content="D"><h1>Hello World</h1>`
`<p>This is a sufficiently long paragraph text.</p><a href="/x">Link</a>`. -/
def sampleDoc : HtmlDoc :=
  { titleText := some "T", metaDescription := some (some "D"),
    headingTexts := ["Hello World"],
    paragraphTexts := ["This is a sufficiently long paragraph text."],
    anchors := [{ text := "Link", href := "/x" }] }

def sampleUrl : String := "https://example.com"

/-- The extraction result for `sampleDoc` at `sampleUrl` with no query. -/
def sampleOk : ScrapeOk :=
  { url := "https://example.com", title := "T", description := "D",
    query := none, headings := ["Hello World"],
    paragraphs := ["This is a sufficiently long paragraph text."],
    links := [{ text := "Link", url := "https://example.com/x" }],
    found_matches := none }

/-- The extraction result for `sampleDoc` at `sampleUrl` with query
`"hello"`. -/
def sampleQueryOk : ScrapeOk :=
  { url := "https://example.com", title := "T", description := "D",
    query := some "hello", headings := ["Hello World"],
    paragraphs := [], links := [], found_matches := some 1 }

/-- A document with six headings all containing the letter `x`: more matches
than the five headings the result may list. -/
def manyDoc : HtmlDoc :=
  { titleText := none, metaDescription := none,
    headingTexts := ["x a", "x b", "x c", "x d", "x e", "x f"],
    paragraphTexts := [], anchors := [] }

/-! ## Lemmas about whitespace collapsing and stripping -/

theorem collapseWS_cons_nonspace (d : Char) (rest : List Char)
    (h : isSpace d = false) : collapseWS (d :: rest) = d :: collapseWS rest := by
  cases rest with
  | nil => simp [collapseWS, h]
  | cons e tl => simp [collapseWS, h]

theorem collapseWS_cons_ne_nil (c : Char) (cs : List Char) :
    collapseWS (c :: cs) ≠ [] := by
  induction cs generalizing c with
  | nil => by_cases hc : isSpace c <;> simp [collapseWS, hc]
  | cons d rest ih =>
    by_cases hc : isSpace c
    · by_cases hd : isSpace d
      · simpa [collapseWS, hc, hd] using ih d
      · simp [collapseWS, hc, hd]
    · simp [collapseWS, hc]

theorem collapseWS_cons_exists (c : Char) (cs : List Char) :
    ∃ e tl, collapseWS (c :: cs) = e :: tl := by
  cases h : collapseWS (c :: cs) with
  | nil => exact absurd h (collapseWS_cons_ne_nil c cs)
  | cons e tl => exact ⟨e, tl, rfl⟩

theorem collapseWS_idem (l : List Char) :
    collapseWS (collapseWS l) = collapseWS l := by
  induction l using collapseWS.induct with
  | case1 => rfl
  | case2 c hc =>
    rw [show collapseWS [c] = [' '] from by simp [collapseWS, hc]]
    decide
  | case3 c hc =>
    have hc' : isSpace c = false := by simpa using hc
    simp [collapseWS, hc']
  | case4 c d rest hc hd ih =>
    rw [show collapseWS (c :: d :: rest) = collapseWS (d :: rest) from by
      simp [collapseWS, hc, hd]]
    exact ih
  | case5 c d rest hc hd ih =>
    have hd' : isSpace d = false := by simpa using hd
    have hrec := collapseWS_cons_nonspace d rest hd'
    rw [show collapseWS (c :: d :: rest) = ' ' :: collapseWS (d :: rest) from by
      simp [collapseWS, hc, hd']]
    rw [hrec]
    rw [show collapseWS (' ' :: d :: collapseWS rest)
          = ' ' :: collapseWS (d :: collapseWS rest) from by
      simp [collapseWS, hd', show isSpace ' ' = true from by decide]]
    rw [hrec] at ih
    rw [collapseWS_cons_nonspace d (collapseWS rest) hd'] at ih ⊢
    exact congrArg _ ih
  | case6 c d rest hc ih =>
    have hc' : isSpace c = false := by simpa using hc
    obtain ⟨e, tl, he⟩ := collapseWS_cons_exists d rest
    rw [show collapseWS (c :: d :: rest) = c :: collapseWS (d :: rest) from by
      simp [collapseWS, hc']]
    rw [he]
    rw [show collapseWS (c :: e :: tl) = c :: collapseWS (e :: tl) from by
      simp [collapseWS, hc']]
    rw [← he, ih]

theorem noLeadWS_collapseWS (l : List Char) (h : noLeadWS l = true) :
    noLeadWS (collapseWS l) = true := by
  cases l with
  | nil => rfl
  | cons c cs =>
    have hc : isSpace c = false := by simpa [noLeadWS] using h
    rw [collapseWS_cons_nonspace c cs hc]
    simpa [noLeadWS] using hc

theorem noTrailWS_collapseWS (l : List Char) (h : noTrailWS l = true) :
    noTrailWS (collapseWS l) = true := by
  induction l using collapseWS.induct with
  | case1 => rfl
  | case2 c hc =>
    exact absurd (by simpa [noTrailWS] using h) (by simpa using hc)
  | case3 c hc =>
    have hc' : isSpace c = false := by simpa using hc
    simp [collapseWS, hc', noTrailWS]
  | case4 c d rest hc hd ih =>
    rw [show collapseWS (c :: d :: rest) = collapseWS (d :: rest) from by
      simp [collapseWS, hc, hd]]
    exact ih (by simpa [noTrailWS] using h)
  | case5 c d rest hc hd ih =>
    have hd' : isSpace d = false := by simpa using hd
    rw [show collapseWS (c :: d :: rest) = ' ' :: collapseWS (d :: rest) from by
      simp [collapseWS, hc, hd']]
    have h' := ih (by simpa [noTrailWS] using h)
    obtain ⟨e, tl, he⟩ := collapseWS_cons_exists d rest
    rw [he]
    rw [he] at h'
    simpa [noTrailWS] using h'
  | case6 c d rest hc ih =>
    have hc' : isSpace c = false := by simpa using hc
    rw [show collapseWS (c :: d :: rest) = c :: collapseWS (d :: rest) from by
      simp [collapseWS, hc']]
    have h' := ih (by simpa [noTrailWS] using h)
    obtain ⟨e, tl, he⟩ := collapseWS_cons_exists d rest
    rw [he]
    rw [he] at h'
    simpa [noTrailWS] using h'

theorem noLeadWS_dropWhile (l : List Char) :
    noLeadWS (l.dropWhile isSpace) = true := by
  induction l with
  | nil => rfl
  | cons c cs ih =>
    by_cases hc : isSpace c
    · simpa [List.dropWhile_cons, hc] using ih
    · simp [List.dropWhile_cons, hc, noLeadWS]

theorem dropWhile_of_noLeadWS (l : List Char) (h : noLeadWS l = true) :
    l.dropWhile isSpace = l := by
  cases l with
  | nil => rfl
  | cons c cs =>
    simp [List.dropWhile_cons, show isSpace c = false from by
      simpa [noLeadWS] using h]

theorem noLeadWS_append (xs ys : List Char) (h : xs ≠ []) :
    noLeadWS (xs ++ ys) = noLeadWS xs := by
  cases xs with
  | nil => exact absurd rfl h
  | cons a as => simp [noLeadWS]

theorem noTrailWS_eq_noLeadWS_reverse (l : List Char) :
    noTrailWS l = noLeadWS l.reverse := by
  induction l with
  | nil => rfl
  | cons c cs ih =>
    cases cs with
    | nil => simp [noTrailWS, noLeadWS]
    | cons d rest =>
      rw [show noTrailWS (c :: d :: rest) = noTrailWS (d :: rest) from rfl, ih,
        List.reverse_cons c (d :: rest),
        noLeadWS_append ((d :: rest).reverse) [c] (by simp)]

theorem dropTrailingWS_of_noTrailWS (l : List Char) (h : noTrailWS l = true) :
    dropTrailingWS l = l := by
  rw [noTrailWS_eq_noLeadWS_reverse] at h
  rw [dropTrailingWS, dropWhile_of_noLeadWS _ h, List.reverse_reverse]

theorem noTrailWS_dropTrailingWS (l : List Char) :
    noTrailWS (dropTrailingWS l) = true := by
  rw [noTrailWS_eq_noLeadWS_reverse, dropTrailingWS, List.reverse_reverse]
  exact noLeadWS_dropWhile l.reverse

theorem noLeadWS_of_prefixPart (p l : List Char) (hp : p <+: l)
    (h : noLeadWS l = true) : noLeadWS p = true := by
  obtain ⟨t, ht⟩ := hp
  cases p with
  | nil => rfl
  | cons a as =>
    subst ht
    simpa [noLeadWS] using h

theorem noLeadWS_dropTrailingWS (l : List Char) (h : noLeadWS l = true) :
    noLeadWS (dropTrailingWS l) = true := by
  refine noLeadWS_of_prefixPart _ l ?_ h
  rw [dropTrailingWS]
  have h2 : (l.reverse.dropWhile isSpace).reverse <+: l.reverse.reverse :=
    List.reverse_prefix.mpr (List.dropWhile_suffix isSpace)
  rw [List.reverse_reverse] at h2
  exact h2

theorem noLeadWS_stripWS (l : List Char) : noLeadWS (stripWS l) = true :=
  noLeadWS_dropTrailingWS _ (noLeadWS_dropWhile l)

theorem noTrailWS_stripWS (l : List Char) : noTrailWS (stripWS l) = true :=
  noTrailWS_dropTrailingWS _

theorem stripWS_of_noLead_noTrail (l : List Char) (h1 : noLeadWS l = true)
    (h2 : noTrailWS l = true) : stripWS l = l := by
  rw [stripWS, dropWhile_of_noLeadWS _ h1, dropTrailingWS_of_noTrailWS _ h2]

theorem stripWS_collapseWS_stripWS (l : List Char) :
    stripWS (collapseWS (stripWS l)) = collapseWS (stripWS l) :=
  stripWS_of_noLead_noTrail _
    (noLeadWS_collapseWS _ (noLeadWS_stripWS l))
    (noTrailWS_collapseWS _ (noTrailWS_stripWS l))

theorem mk_eq_empty_iff (l : List Char) : String.mk l = "" ↔ l = [] := by
  constructor
  · intro h
    have := congrArg String.data h
    simpa using this
  · intro h
    rw [h]

/-- Idempotence of `clean_text`: normalizing an already-normalized string is
the identity. -/
theorem clean_text_idem (x : Option String) :
    clean_text (some (clean_text x)) = clean_text x := by
  cases x with
  | none => rfl
  | some s =>
    by_cases hs : s.isEmpty
    · have h0 : clean_text (some s) = "" := by simp [clean_text, hs]
      rw [h0]
      rfl
    · rw [show clean_text (some s)
            = String.mk (collapseWS (stripWS s.data)) from by
        simp [clean_text, hs]]
      by_cases he : (String.mk (collapseWS (stripWS s.data))).isEmpty
      · rw [show clean_text (some (String.mk (collapseWS (stripWS s.data))))
              = "" from by simp [clean_text, he]]
        exact ((String.isEmpty_iff _).mp he).symm
      · rw [show clean_text (some (String.mk (collapseWS (stripWS s.data))))
              = String.mk (collapseWS (stripWS
                  (String.mk (collapseWS (stripWS s.data))).data)) from by
          simp [clean_text, he]]
        rw [show (String.mk (collapseWS (stripWS s.data))).data
              = collapseWS (stripWS s.data) from rfl]
        rw [stripWS_collapseWS_stripWS, collapseWS_idem]

/-! ## Equation lemmas for `scrape_website` -/

/-- A successful scrape with a truthy query returns exactly the record built
at app.py lines 97-106. -/
theorem scrape_eq_query (url q : String) (soup : HtmlDoc)
    (fetch : String → FetchOutcome)
    (hvalid : ¬((urlparse url).scheme = "" ∨ (urlparse url).netloc = ""))
    (hfetch : fetch url = .success soup)
    (hq : q.isEmpty = false) :
    scrape_website url (some q) fetch = .ok {
      url := url,
      title := match soup.titleText with
        | some t => clean_text (some t)
        | none => "タイトルなし",
      description := match soup.metaDescription with
        | some content => clean_text content
        | none => "",
      query := some q,
      headings := ((extractHeadings soup).filter
        (fun h => containsSub (lowerStr q) (lowerStr h))).take 5,
      paragraphs := ((extractParagraphs soup).filter
        (fun p => containsSub (lowerStr q) (lowerStr p))).take 10,
      links := ((extractLinks url soup).filter
        (fun l => containsSub (lowerStr q) (lowerStr l.text))).take 10,
      found_matches := some (((extractHeadings soup).filter
          (fun h => containsSub (lowerStr q) (lowerStr h))).length
        + ((extractParagraphs soup).filter
          (fun p => containsSub (lowerStr q) (lowerStr p))).length
        + ((extractLinks url soup).filter
          (fun l => containsSub (lowerStr q) (lowerStr l.text))).length) } := by
  simp only [scrape_website, if_neg hvalid, hfetch, truthy, hq,
    Bool.not_false, if_true, Option.getD]

/-- A successful scrape with a falsy query returns exactly the record built
at app.py lines 108-115. -/
theorem scrape_eq_noquery (url : String) (q : Option String) (soup : HtmlDoc)
    (fetch : String → FetchOutcome)
    (hvalid : ¬((urlparse url).scheme = "" ∨ (urlparse url).netloc = ""))
    (hfetch : fetch url = .success soup)
    (hq : truthy q = false) :
    scrape_website url q fetch = .ok {
      url := url,
      title := match soup.titleText with
        | some t => clean_text (some t)
        | none => "タイトルなし",
      description := match soup.metaDescription with
        | some content => clean_text content
        | none => "",
      query := none,
      headings := (extractHeadings soup).take 5,
      paragraphs := (extractParagraphs soup).take 10,
      links := (extractLinks url soup).take 10,
      found_matches := none } := by
  simp only [scrape_website, if_neg hvalid, hfetch, hq, Bool.false_eq_true,
    if_false]

/-- A scrape that returned `.ok` passed URL validation and saw a successful
fetch. -/
theorem scrape_ok_inv (url : String) (q : Option String)
    (fetch : String → FetchOutcome) (r : ScrapeOk)
    (hok : scrape_website url q fetch = .ok r) :
    ¬((urlparse url).scheme = "" ∨ (urlparse url).netloc = "") ∧
    ∃ soup, fetch url = .success soup := by
  by_cases hv : (urlparse url).scheme = "" ∨ (urlparse url).netloc = ""
  · rw [scrape_website, if_pos hv] at hok
    exact absurd hok (by simp)
  · refine ⟨hv, ?_⟩
    rw [scrape_website, if_neg hv] at hok
    cases hfetch : fetch url with
    | success soup => exact ⟨soup, rfl⟩
    | timeout => rw [hfetch] at hok; exact absurd hok (by simp)
    | connectionError => rw [hfetch] at hok; exact absurd hok (by simp)
    | httpError code => rw [hfetch] at hok; exact absurd hok (by simp)
    | otherError msg => rw [hfetch] at hok; exact absurd hok (by simp)

/-! ## Claims -/

/-- C7: `clean_text` returns the empty string for null or empty input,
collapses whitespace runs and trims (so `clean_text "a\n\n  b\tc " =
"a b c"`), and is idempotent. -/
theorem claim_C7 :
    clean_text none = "" ∧ clean_text (some "") = "" ∧
    (∀ x : Option String, clean_text (some (clean_text x)) = clean_text x) ∧
    clean_text (some "a\n\n  b\tc ") = "a b c" :=
  ⟨rfl, rfl, clean_text_idem, by decide⟩

/-- C9: a URL whose parsed form lacks a scheme or a host makes
`scrape_website` return the invalid-URL error, and the result does not
depend on the fetch function at all — no network request is consulted. -/
theorem claim_C9 (url : String) (q : Option String)
    (h : (urlparse url).scheme = "" ∨ (urlparse url).netloc = "") :
    (∀ fetch, scrape_website url q fetch = .error "無効なURLです") ∧
    (∀ fetch fetch2,
      scrape_website url q fetch = scrape_website url q fetch2) := by
  constructor
  · intro fetch
    rw [scrape_website, if_pos h]
  · intro fetch fetch2
    rw [scrape_website, if_pos h, scrape_website, if_pos h]

/-- C9 witness: `"not a url"` parses without a scheme and yields the
invalid-URL error under an arbitrary fetch function. -/
theorem claim_C9_witness :
    scrape_website "not a url" none (fun _ => .timeout)
      = .error "無効なURLです" :=
  (claim_C9 "not a url" none (Or.inl (by decide))).1 (fun _ => .timeout)

/-- C5 counterexample: a work item that runs 100 s against the 60 s deadline
is classified `timedOut`, but the caller stays blocked for the full 100 s —
past the outer deadline — because leaving the `with` block waits for the
in-flight work. -/
theorem claim_C5_counterexample :
    (boundedRun ({ duration := 100, outcome := .ok 0 } : TimedWork Nat)
        60).1 = .timedOut ∧
    ¬((boundedRun ({ duration := 100, outcome := .ok 0 } : TimedWork Nat)
        60).2 ≤ 60) := by
  decide

/-- C5 (amended): `boundedRun` classifies the outcome as the claim states —
`success` when the work returns within the deadline, `failed` when it raises
within the deadline, `timedOut` when the deadline elapses first — but the
caller is blocked for the work's full duration in every case (the executor
shutdown on leaving the `with` block waits for abandoned work), so after a
timeout the caller waits past the outer deadline. -/
theorem claim_C5_amended {α : Type} (w : TimedWork α) (d : Nat) :
    (∀ v, w.outcome = .ok v → w.duration ≤ d →
        (boundedRun w d).1 = .success v) ∧
    (∀ e, w.outcome = .error e → w.duration ≤ d →
        (boundedRun w d).1 = .failed e) ∧
    (d < w.duration → (boundedRun w d).1 = .timedOut) ∧
    (boundedRun w d).2 = w.duration := by
  refine ⟨?_, ?_, ?_, ?_⟩
  · intro v hv hle
    simp [boundedRun, if_pos hle, hv]
  · intro e he hle
    simp [boundedRun, if_pos hle, he]
  · intro hlt
    simp [boundedRun, if_neg (not_le.mpr hlt)]
  · by_cases hle : w.duration ≤ d
    · cases ho : w.outcome <;> simp [boundedRun, if_pos hle, ho]
    · simp [boundedRun, if_neg hle]

/-- C5 amended witness at concrete work items. -/
theorem claim_C5_amended_witness :
    (boundedRun ({ duration := 5, outcome := .ok 42 } : TimedWork Nat)
        60).1 = .success 42 ∧
    (boundedRun ({ duration := 100, outcome := .ok 42 } : TimedWork Nat)
        60).1 = .timedOut ∧
    (boundedRun ({ duration := 100, outcome := .ok 42 } : TimedWork Nat)
        60).2 = 100 :=
  ⟨(claim_C5_amended { duration := 5, outcome := .ok 42 } 60).1 42 rfl
      (by decide),
   (claim_C5_amended { duration := 100, outcome := .ok 42 } 60).2.2.1
      (by decide),
   (claim_C5_amended { duration := 100, outcome := .ok 42 } 60).2.2.2⟩

/-- C3 counterexample: the falsy-body 400 response carries no `elapsed_time`
member, and neither does the 500 response for an exception escaping the
bounded wait. -/
theorem claim_C3_counterexample :
    (search (.value none) (fun _ _ => .raised "boom") 7).elapsed_time
        = none ∧
    (search (.value (some { url := some "example.com", query := some "" }))
        (fun _ _ => .raised "boom") 7).status = 500 ∧
    (search (.value (some { url := some "example.com", query := some "" }))
        (fun _ _ => .raised "boom") 7).elapsed_time = none := by
  decide

/-- C3 (amended): `elapsed_time` is present exactly on the two responses
built from a completed scrape — the 200 success and the 400 scrape-error —
while the parse-failure 500, the falsy-body 400, the missing-URL 400 and
the executor-exception 500 responses omit it. -/
theorem claim_C3_amended (msg : String) (d : RequestData)
    (runScrape : String → String → ExecOutcome) (elapsed : Nat) :
    (search (.raises msg) runScrape elapsed).elapsed_time = none ∧
    (search (.value none) runScrape elapsed).elapsed_time = none ∧
    ((stripStr (d.url.getD "")).isEmpty = true →
      (search (.value (some d)) runScrape elapsed).elapsed_time = none) ∧
    ((stripStr (d.url.getD "")).isEmpty = false →
      ∀ r, runScrape (effectiveUrl (stripStr (d.url.getD "")))
          (stripStr (d.query.getD "")) = .completed r →
        (search (.value (some d)) runScrape elapsed).elapsed_time
          = some elapsed) ∧
    ((stripStr (d.url.getD "")).isEmpty = false →
      ∀ m, runScrape (effectiveUrl (stripStr (d.url.getD "")))
          (stripStr (d.query.getD "")) = .raised m →
        (search (.value (some d)) runScrape elapsed).elapsed_time
          = none) := by
  refine ⟨rfl, rfl, ?_, ?_, ?_⟩
  · intro hurl
    simp [search, hurl]
  · intro hurl r hrun
    cases r <;> simp [search, hurl, hrun, handleOutcome]
  · intro hurl m hrun
    simp [search, hurl, hrun, handleOutcome]

/-- C3 amended witness: at a concrete request the completed-scrape response
carries `elapsed_time` 7. -/
theorem claim_C3_amended_witness :
    (search
      (.value (some { url := some "https://example.com", query := some "" }))
      (fun _ _ => .completed (.ok sampleOk)) 7).elapsed_time = some 7 :=
  (claim_C3_amended "x"
      { url := some "https://example.com", query := some "" }
      (fun _ _ => .completed (.ok sampleOk)) 7).2.2.2.1
    (by decide) (.ok sampleOk) rfl

/-- C4: for a request that passed body and URL validation, the `/search`
handler maps the executor outcome to the response status — a payload with
no error key yields 200 with the payload, an error key returned by the
scraper yields 400 with its message, and an exception escaping the bounded
wait (including the outer-deadline timeout) yields 500. -/
theorem claim_C4 (d : RequestData) (runScrape : String → String → ExecOutcome)
    (elapsed : Nat)
    (hurl : (stripStr (d.url.getD "")).isEmpty = false) :
    (∀ payload,
      runScrape (effectiveUrl (stripStr (d.url.getD "")))
          (stripStr (d.query.getD "")) = .completed (.ok payload) →
      search (.value (some d)) runScrape elapsed
        = { status := 200, error := none, result := some payload,
            elapsed_time := some elapsed }) ∧
    (∀ e,
      runScrape (effectiveUrl (stripStr (d.url.getD "")))
          (stripStr (d.query.getD "")) = .completed (.error e) →
      search (.value (some d)) runScrape elapsed
        = { status := 400, error := some e, result := none,
            elapsed_time := some elapsed }) ∧
    (∀ m,
      runScrape (effectiveUrl (stripStr (d.url.getD "")))
          (stripStr (d.query.getD "")) = .raised m →
      (search (.value (some d)) runScrape elapsed).status = 500) := by
  refine ⟨?_, ?_, ?_⟩
  · intro payload hrun
    simp [search, hurl, hrun, handleOutcome]
  · intro e hrun
    simp [search, hurl, hrun, handleOutcome]
  · intro m hrun
    simp [search, hurl, hrun, handleOutcome]

/-- C4 witness: concrete requests hitting the 200, 400 and 500 arms. -/
theorem claim_C4_witness :
    search
      (.value (some { url := some "https://example.com", query := none }))
      (fun _ _ => .completed (.ok sampleOk)) 2
      = { status := 200, error := none, result := some sampleOk,
          elapsed_time := some 2 } :=
  (claim_C4 { url := some "https://example.com", query := none }
      (fun _ _ => .completed (.ok sampleOk)) 2 (by decide)).1
    sampleOk rfl

/-- C6 counterexample: a request whose `query` trims to the empty string is
not rejected — scraping proceeds and its response is returned with 200. -/
theorem claim_C6_counterexample :
    search (.value (some { url := some "example.com", query := some "  " }))
        (fun _ _ => .completed (.ok sampleOk)) 3
      = { status := 200, error := none, result := some sampleOk,
          elapsed_time := some 3 } := by
  decide

/-- C6 (amended): a body whose JSON parse raises is answered 500 through the
handler's generic `except` (not 400); a parsed-but-falsy body is answered
400; a `url` empty after trimming is rejected with 400 before any scraping;
an empty `query` is accepted and scraping proceeds with it; a non-empty
`url` lacking an `http://`/`https://` prefix has `https://` prepended
before scraping. -/
theorem claim_C6_amended (msg : String) (d : RequestData)
    (runScrape : String → String → ExecOutcome) (elapsed : Nat) :
    (search (.raises msg) runScrape elapsed).status = 500 ∧
    (search (.value none) runScrape elapsed).status = 400 ∧
    ((stripStr (d.url.getD "")).isEmpty = true →
      search (.value (some d)) runScrape elapsed
        = { status := 400, error := some "URLが提供されていません",
            result := none, elapsed_time := none }) ∧
    ((stripStr (d.url.getD "")).isEmpty = false →
      search (.value (some d)) runScrape elapsed
        = handleOutcome
            (runScrape (effectiveUrl (stripStr (d.url.getD "")))
              (stripStr (d.query.getD ""))) elapsed) ∧
    (∀ u : String,
      (startswith u "http://" || startswith u "https://") = false →
      effectiveUrl u = "https://" ++ u) := by
  refine ⟨rfl, rfl, ?_, ?_, ?_⟩
  · intro hurl
    simp [search, hurl]
  · intro hurl
    simp [search, hurl]
  · intro u hu
    simp [effectiveUrl, hu]

/-- C6 amended witness: a whitespace-only URL is rejected with 400, and a
bare host gets `https://` prepended. -/
theorem claim_C6_amended_witness :
    search (.value (some { url := some "  ", query := some "q" }))
        (fun _ _ => .raised "never") 1
      = { status := 400, error := some "URLが提供されていません",
          result := none, elapsed_time := none } ∧
    effectiveUrl "example.com" = "https://example.com" :=
  ⟨(claim_C6_amended "x" { url := some "  ", query := some "q" }
      (fun _ _ => .raised "never") 1).2.2.1 (by decide),
   (claim_C6_amended "x" { url := some "  ", query := some "q" }
      (fun _ _ => .raised "never") 1).2.2.2.2 "example.com" (by decide)⟩

/-- C1: for a successful extraction with a non-empty query, `found_matches`
equals the number of matching headings plus matching paragraphs plus
matching links, counted after the case-insensitive filter but before the
5/10/10 truncation; consequently it can exceed the number of entries the
three returned lists actually hold. -/
theorem claim_C1 (url q : String) (soup : HtmlDoc)
    (fetch : String → FetchOutcome) (r : ScrapeOk)
    (hq : q.isEmpty = false)
    (hfetch : fetch url = .success soup)
    (hok : scrape_website url (some q) fetch = .ok r) :
    r.found_matches = some
      (((extractHeadings soup).filter
          (fun h => containsSub (lowerStr q) (lowerStr h))).length
        + ((extractParagraphs soup).filter
          (fun p => containsSub (lowerStr q) (lowerStr p))).length
        + ((extractLinks url soup).filter
          (fun l => containsSub (lowerStr q) (lowerStr l.text))).length) ∧
    ∃ (url2 q2 : String) (fetch2 : String → FetchOutcome) (r2 : ScrapeOk),
      scrape_website url2 (some q2) fetch2 = .ok r2 ∧
      r2.headings.length + r2.paragraphs.length + r2.links.length
        < r2.found_matches.getD 0 := by
  constructor
  · obtain ⟨hvalid, -⟩ := scrape_ok_inv _ _ _ _ hok
    rw [scrape_eq_query url q soup fetch hvalid hfetch hq] at hok
    rw [← ScrapeResult.ok.inj hok]
  · refine ⟨"https://example.com", "x", fun _ => .success manyDoc,
      { url := "https://example.com", title := "タイトルなし",
        description := "", query := some "x",
        headings := ["x a", "x b", "x c", "x d", "x e"],
        paragraphs := [], links := [], found_matches := some 6 },
      by decide, by decide⟩

/-- C1 witness at the §8 sample with query `"hello"`. -/
theorem claim_C1_witness :
    sampleQueryOk.found_matches = some
      (((extractHeadings sampleDoc).filter
          (fun h => containsSub (lowerStr "hello") (lowerStr h))).length
        + ((extractParagraphs sampleDoc).filter
          (fun p => containsSub (lowerStr "hello") (lowerStr p))).length
        + ((extractLinks "https://example.com" sampleDoc).filter
          (fun l =>
            containsSub (lowerStr "hello") (lowerStr l.text))).length) :=
  (claim_C1 "https://example.com" "hello" sampleDoc
      (fun _ => .success sampleDoc) sampleQueryOk (by decide) rfl
      (by decide)).1

/-- C2: for a successful extraction with a non-empty query, every returned
heading, paragraph and link text contains the query case-insensitively, the
lists hold at most 5/10/10 entries, and the query is echoed back. -/
theorem claim_C2 (url q : String) (soup : HtmlDoc)
    (fetch : String → FetchOutcome) (r : ScrapeOk)
    (hq : q.isEmpty = false)
    (hfetch : fetch url = .success soup)
    (hok : scrape_website url (some q) fetch = .ok r) :
    (∀ h ∈ r.headings, containsSub (lowerStr q) (lowerStr h) = true) ∧
    (∀ p ∈ r.paragraphs, containsSub (lowerStr q) (lowerStr p) = true) ∧
    (∀ l ∈ r.links, containsSub (lowerStr q) (lowerStr l.text) = true) ∧
    r.headings.length ≤ 5 ∧ r.paragraphs.length ≤ 10 ∧
    r.links.length ≤ 10 ∧ r.query = some q := by
  obtain ⟨hvalid, -⟩ := scrape_ok_inv _ _ _ _ hok
  rw [scrape_eq_query url q soup fetch hvalid hfetch hq] at hok
  rw [← ScrapeResult.ok.inj hok]
  refine ⟨?_, ?_, ?_, List.length_take_le 5 _, List.length_take_le 10 _,
    List.length_take_le 10 _, rfl⟩
  · intro h hmem
    have hmem0 : h ∈ ((extractHeadings soup).filter
        (fun x => containsSub (lowerStr q) (lowerStr x))).take 5 := hmem
    have hmem' : h ∈ (extractHeadings soup).filter
        (fun x => containsSub (lowerStr q) (lowerStr x)) :=
      List.mem_of_mem_take hmem0
    have hp := List.of_mem_filter hmem'
    exact hp
  · intro p hmem
    have hmem0 : p ∈ ((extractParagraphs soup).filter
        (fun x => containsSub (lowerStr q) (lowerStr x))).take 10 := hmem
    have hmem' : p ∈ (extractParagraphs soup).filter
        (fun x => containsSub (lowerStr q) (lowerStr x)) :=
      List.mem_of_mem_take hmem0
    have hp := List.of_mem_filter hmem'
    exact hp
  · intro l hmem
    have hmem0 : l ∈ ((extractLinks url soup).filter
        (fun x => containsSub (lowerStr q) (lowerStr x.text))).take 10 := hmem
    have hmem' : l ∈ (extractLinks url soup).filter
        (fun x => containsSub (lowerStr q) (lowerStr x.text)) :=
      List.mem_of_mem_take hmem0
    have hp := List.of_mem_filter hmem'
    exact hp

/-- C2 witness at the §8 sample with query `"hello"` (the binder-free
conjuncts). -/
theorem claim_C2_witness :
    sampleQueryOk.headings.length ≤ 5 ∧
    sampleQueryOk.query = some "hello" :=
  ⟨(claim_C2 "https://example.com" "hello" sampleDoc
      (fun _ => .success sampleDoc) sampleQueryOk (by decide) rfl
      (by decide)).2.2.2.1,
   (claim_C2 "https://example.com" "hello" sampleDoc
      (fun _ => .success sampleDoc) sampleQueryOk (by decide) rfl
      (by decide)).2.2.2.2.2.2⟩

/-- C8: for a successful extraction with an empty or absent query, the
result lists the unfiltered extractions truncated to 5/10/10 — headings
from the first 10 `h1`/`h2`/`h3` with empty ones dropped, paragraphs from
the first 20 `<p>` with cleaned length ≤ 20 dropped, links from the first
15 anchors with an `href` and non-empty text — omitting the `query` and
`found_matches` members; and on the §8 sample HTML it returns exactly
`sampleOk` (title `"T"`, description `"D"`, headings `["Hello World"]`, the
one long paragraph, the one link with its `href` resolved absolute). -/
theorem claim_C8 (url : String) (q : Option String) (soup : HtmlDoc)
    (fetch : String → FetchOutcome) (r : ScrapeOk)
    (hq : truthy q = false)
    (hfetch : fetch url = .success soup)
    (hok : scrape_website url q fetch = .ok r) :
    (r.query = none ∧ r.found_matches = none ∧
     r.headings = (extractHeadings soup).take 5 ∧
     r.paragraphs = (extractParagraphs soup).take 10 ∧
     r.links = (extractLinks url soup).take 10 ∧
     r.headings.length ≤ 5 ∧ r.paragraphs.length ≤ 10 ∧
     r.links.length ≤ 10) ∧
    scrape_website sampleUrl none (fun _ => .success sampleDoc)
      = .ok sampleOk := by
  constructor
  · obtain ⟨hvalid, -⟩ := scrape_ok_inv _ _ _ _ hok
    rw [scrape_eq_noquery url q soup fetch hvalid hfetch hq] at hok
    rw [← ScrapeResult.ok.inj hok]
    exact ⟨rfl, rfl, rfl, rfl, rfl, List.length_take_le 5 _,
      List.length_take_le 10 _, List.length_take_le 10 _⟩
  · decide

/-- C8 witness: the §8 sample evaluation, via the claim theorem. -/
theorem claim_C8_witness :
    scrape_website sampleUrl none (fun _ => .success sampleDoc)
      = .ok sampleOk :=
  (claim_C8 sampleUrl none sampleDoc (fun _ => .success sampleDoc) sampleOk
      rfl rfl (by decide)).2

/-- C10: for every successful extraction (with or without a query), the
returned headings, paragraphs and links are sublists of the corresponding
full lists extracted in document order — `List.Sublist` states exactly that
filtering and truncation keep the original order and never duplicate or
synthesize entries. -/
theorem claim_C10 (url : String) (q : Option String) (soup : HtmlDoc)
    (fetch : String → FetchOutcome) (r : ScrapeOk)
    (hfetch : fetch url = .success soup)
    (hok : scrape_website url q fetch = .ok r) :
    List.Sublist r.headings (extractHeadings soup) ∧
    List.Sublist r.paragraphs (extractParagraphs soup) ∧
    List.Sublist r.links (extractLinks url soup) := by
  obtain ⟨hvalid, -⟩ := scrape_ok_inv _ _ _ _ hok
  cases ht : truthy q with
  | false =>
    rw [scrape_eq_noquery url q soup fetch hvalid hfetch ht] at hok
    rw [← ScrapeResult.ok.inj hok]
    exact ⟨List.take_sublist _ _, List.take_sublist _ _,
      List.take_sublist _ _⟩
  | true =>
    cases q with
    | none => exact absurd ht (by simp [truthy])
    | some s =>
      have hs : s.isEmpty = false := by
        cases h : s.isEmpty
        · rfl
        · rw [truthy, h] at ht
          simp at ht
      rw [scrape_eq_query url s soup fetch hvalid hfetch hs] at hok
      rw [← ScrapeResult.ok.inj hok]
      exact ⟨(List.take_sublist _ _).trans (List.filter_sublist _),
        (List.take_sublist _ _).trans (List.filter_sublist _),
        (List.take_sublist _ _).trans (List.filter_sublist _)⟩

/-- C10 witness at the §8 sample with no query. -/
theorem claim_C10_witness :
    List.Sublist sampleOk.headings (extractHeadings sampleDoc) :=
  (claim_C10 sampleUrl none sampleDoc (fun _ => .success sampleDoc) sampleOk
      rfl (by decide)).1

end App
